import Mathlib

set_option linter.unusedVariables false

/-! Shallow embedding of src/resources/js/ScriptGrammar.js.

JavaScript values flowing through the grammar (column values, clause
values) are modelled by JsVal: null, numbers (as integers) and strings.
The implicit numeric conversion of strings that JavaScript performs in
loose comparisons (ToNumber) is modelled by jsToNumber, with none
standing for NaN; blank strings convert to 0 as in JavaScript.

Side effects of the caller-supplied column resolver are modelled by
explicit state passing: a resolver takes the column name and the current
state and returns the value together with the next state.  The mutable
field this.columnResolver is modelled by passing the grammar instance to
every compiled closure at invocation time: a closure produced by the
column method reads the resolver of the grammar it is invoked with,
which is the JavaScript behaviour of reading this.columnResolver late,
at call time, rather than capturing its value when the clause compiles.

JavaScript exceptions (the TypeError thrown when an undefined method or
callback is invoked as a function) are modelled with Except String; the
console.error text printed just before the crash is folded into the
error value. -/

inductive JsVal where
  | null : JsVal
  | num : Int → JsVal
  | str : String → JsVal
deriving DecidableEq

/-- Digit-sequence parsing for the string-to-number conversion: a run
of decimal digits accumulates into a natural number, any other
character means the string is not numeric. -/
def jsParseDigitsGo : List Char → Nat → Option Nat
  | [], acc => some acc
  | c :: cs, acc =>
    if c.isDigit then jsParseDigitsGo cs (acc * 10 + (c.toNat - 48)) else none

/-- A nonempty digit run parses to its value; an empty one does not
(a bare sign is NaN in JavaScript). -/
def jsParseDigits : List Char → Option Nat
  | [] => none
  | ds => jsParseDigitsGo ds 0

/-- JavaScript ToNumber on a string: whitespace is trimmed, a blank
string converts to 0, an optionally signed digit string converts to its
integer value, and anything else is NaN (modelled as none).  Fractional
numeric strings are outside the modelled value universe. -/
def jsStrToNumber (s : String) : Option Int :=
  let cs := ((s.data.dropWhile Char.isWhitespace).reverse.dropWhile Char.isWhitespace).reverse
  match cs with
  | [] => some 0
  | '-' :: ds => (jsParseDigits ds).map (fun n => -(n : Int))
  | '+' :: ds => (jsParseDigits ds).map (fun n => (n : Int))
  | ds => (jsParseDigits ds).map (fun n => (n : Int))

/-- JavaScript ToNumber on the modelled values: null converts to 0, a
number is itself, and a string converts through jsStrToNumber. -/
def jsToNumber : JsVal → Option Int
  | JsVal.null => some 0
  | JsVal.num n => some n
  | JsVal.str s => jsStrToNumber s

/-- JavaScript loose (abstract) equality on the modelled values: same
type compares structurally, a number and a string compare after
converting the string to a number, and null is loosely equal only to
null. -/
def looseEq : JsVal → JsVal → Bool
  | JsVal.null, JsVal.null => true
  | JsVal.num a, JsVal.num b => a == b
  | JsVal.str a, JsVal.str b => a == b
  | JsVal.num a, JsVal.str b =>
    match jsToNumber (JsVal.str b) with
    | some m => a == m
    | none => false
  | JsVal.str a, JsVal.num b =>
    match jsToNumber (JsVal.str a) with
    | some m => m == b
    | none => false
  | JsVal.null, _ => false
  | _, JsVal.null => false

/-- Lexicographic string comparison by code points, as JavaScript
orders strings. -/
def jsStrLt : List Char → List Char → Bool
  | [], [] => false
  | [], _ :: _ => true
  | _ :: _, [] => false
  | x :: xs, y :: ys =>
    if x < y then true else if y < x then false else jsStrLt xs ys

/-- JavaScript abstract relational comparison a < b: two strings compare
lexicographically, otherwise both sides convert to numbers and any NaN
makes the comparison false. -/
def jsLt : JsVal → JsVal → Bool
  | JsVal.str a, JsVal.str b => jsStrLt a.data b.data
  | a, b =>
    match jsToNumber a, jsToNumber b with
    | some m, some n => decide (m < n)
    | _, _ => false

/-- JavaScript a <= b on pure values: two strings compare
lexicographically (a total order, so a <= b is the negation of b < a),
otherwise both sides convert to numbers and any NaN makes the
comparison false. -/
def jsLe : JsVal → JsVal → Bool
  | JsVal.str a, JsVal.str b => !jsStrLt b.data a.data
  | a, b =>
    match jsToNumber a, jsToNumber b with
    | some m, some n => decide (m ≤ n)
    | _, _ => false

/-- JavaScript a > b, which compares b < a on pure values. -/
def jsGt (a b : JsVal) : Bool := jsLt b a

/-- JavaScript a >= b, which compares b <= a on pure values. -/
def jsGe (a b : JsVal) : Bool := jsLe b a

/-- Array.prototype.indexOf with a running index, comparing elements to
the searched value with strict equality as JavaScript does. -/
def jsIndexOfAux (v : JsVal) : List JsVal → Nat → Int
  | [], _ => -1
  | x :: xs, i => if x == v then (i : Int) else jsIndexOfAux v xs (i + 1)

/-- Array.prototype.indexOf: the index of the first element strictly
equal to the searched value, or -1 when there is none. -/
def jsIndexOf (values : List JsVal) (v : JsVal) : Int :=
  jsIndexOfAux v values 0

/-- The column resolver contract: given a column name and the current
external state it produces the column's current value and the next
state.  The state makes resolver side effects (such as counting
invocations) observable. -/
abbrev Resolver (σ : Type) := String → σ → JsVal × σ

/-- The grammar instance.  Its only field is the replaceable column
resolver, matching the JavaScript class whose only instance state is
this.columnResolver. -/
structure ScriptGrammar (σ : Type) where
  columnResolver : Resolver σ

/-- A compiled zero-argument value callback.  It receives the grammar as
it stands at invocation time (modelling the closure's live reference to
this) together with the external state. -/
abbrev ColumnEvaluator (σ : Type) := ScriptGrammar σ → σ → JsVal × σ

/-- A compiled zero-argument boolean callback for one clause. -/
abbrev Evaluator (σ : Type) := ScriptGrammar σ → σ → Bool × σ

/-- One where-clause descriptor as produced by the query builder.  All
kind-dependent fields are present; each compiler method reads only the
ones its clause kind uses. -/
structure WhereClause where
  type : String
  boolean : String
  column : String
  operator : String
  value : JsVal
  values : List JsVal

/-- The query descriptor: the wheres field may be absent (none). -/
structure Query where
  wheres : Option (List WhereClause)

/-- One compiled clause: the clause's connective together with its
compiled callback.  The callback is none when the compiler method
produced undefined (a Basic clause with an unrecognized operator falls
out of its switch), which JavaScript stores without complaint. -/
structure CompiledClause (σ : Type) where
  boolean : String
  callback : Option (Evaluator σ)

/-- The JavaScript values the reduce accumulator in
evaluateWhereClauses can take: the null it is seeded with, the
undefined produced by an unrecognized connective, and booleans. -/
inductive JsAcc where
  | null : JsAcc
  | undef : JsAcc
  | bool : Bool → JsAcc
deriving DecidableEq

/-- JavaScript truthiness of an accumulator value. -/
def JsAcc.truthy : JsAcc → Bool
  | JsAcc.bool true => true
  | _ => false

/-- JavaScript a && b on accumulator values: returns a when a is falsy,
otherwise b. -/
def jsAnd (a b : JsAcc) : JsAcc := if a.truthy then b else a

/-- JavaScript a || b on accumulator values: returns a when a is
truthy, otherwise b. -/
def jsOr (a b : JsAcc) : JsAcc := if a.truthy then a else b

/-- The result of invoking a compiled predicate: the accumulator value
the reduce produced, or the error of a TypeError raised when a stored
callback was not a function, together with the final external state. -/
abbrev Predicate (σ : Type) := ScriptGrammar σ → σ → Except String JsAcc × σ

/-- The column method: returns a callback for accessing the specified
column.  The callback reads this.columnResolver each time it is
invoked, so it resolves through the grammar passed at invocation time,
not through the grammar that existed at compile time. -/
def ScriptGrammar.column {σ : Type} (g : ScriptGrammar σ) (name : String) :
    ColumnEvaluator σ :=
  fun g2 s => g2.columnResolver name s

/-- whereBasic: compiles the specified basic where clause.  The switch
on the operator produces a comparison callback, or undefined (none) for
an unrecognized operator.  The compile-time state is returned unchanged:
compiling reads no column. -/
def ScriptGrammar.whereBasic {σ : Type} (g : ScriptGrammar σ) (query : Query)
    (w : WhereClause) (s : σ) : Option (Evaluator σ) × σ :=
  let value := w.value
  let column := ScriptGrammar.column g w.column
  let operator := w.operator
  (match operator with
   | "=" => some (fun g2 s2 => let r := column g2 s2; (looseEq r.1 value, r.2))
   | "!=" => some (fun g2 s2 => let r := column g2 s2; (!looseEq r.1 value, r.2))
   | "<>" => some (fun g2 s2 => let r := column g2 s2; (!looseEq r.1 value, r.2))
   | ">" => some (fun g2 s2 => let r := column g2 s2; (jsGt r.1 value, r.2))
   | ">=" => some (fun g2 s2 => let r := column g2 s2; (jsGe r.1 value, r.2))
   | "<" => some (fun g2 s2 => let r := column g2 s2; (jsLt r.1 value, r.2))
   | "<=" => some (fun g2 s2 => let r := column g2 s2; (jsLe r.1 value, r.2))
   | _ => none, s)

/-- whereIn: compiles the specified "where in" clause.  The callback is
true when the resolved column value occurs in the clause's values,
decided by indexOf and hence by strict equality. -/
def ScriptGrammar.whereIn {σ : Type} (g : ScriptGrammar σ) (query : Query)
    (w : WhereClause) (s : σ) : Evaluator σ × σ :=
  let values := w.values
  let column := ScriptGrammar.column g w.column
  ((fun g2 s2 => let r := column g2 s2; (decide (jsIndexOf values r.1 ≥ 0), r.2)), s)

/-- whereNotIn: compiles the specified "where not in" clause.  The
callback is true when indexOf reports -1 for the resolved value. -/
def ScriptGrammar.whereNotIn {σ : Type} (g : ScriptGrammar σ) (query : Query)
    (w : WhereClause) (s : σ) : Evaluator σ × σ :=
  let values := w.values
  let column := ScriptGrammar.column g w.column
  ((fun g2 s2 => let r := column g2 s2; (decide (jsIndexOf values r.1 = -1), r.2)), s)

/-- whereNull: compiles the specified "where null" clause.  The callback
is true when the resolved value occurs in the two-element array holding
the empty string and null. -/
def ScriptGrammar.whereNull {σ : Type} (g : ScriptGrammar σ) (query : Query)
    (w : WhereClause) (s : σ) : Evaluator σ × σ :=
  let column := ScriptGrammar.column g w.column
  ((fun g2 s2 => let r := column g2 s2;
      (decide (jsIndexOf [JsVal.str "", JsVal.null] r.1 ≥ 0), r.2)), s)

/-- whereNotNull: compiles the specified "where not null" clause.  The
callback is true when indexOf reports -1 against the array holding the
empty string and null. -/
def ScriptGrammar.whereNotNull {σ : Type} (g : ScriptGrammar σ) (query : Query)
    (w : WhereClause) (s : σ) : Evaluator σ × σ :=
  let column := ScriptGrammar.column g w.column
  ((fun g2 s2 => let r := column g2 s2;
      (decide (jsIndexOf [JsVal.str "", JsVal.null] r.1 = -1), r.2)), s)

/-- The dynamic method lookup this["where" + type]: the string
concatenation is matched against the method names of the class.  The
four non-Basic methods always return a callback; the wrapper lifts them
to the common Option-returning shape under which whereBasic's possible
undefined also fits. -/
def ScriptGrammar.methodFor {σ : Type} (type : String) :
    Option (ScriptGrammar σ → Query → WhereClause → σ → Option (Evaluator σ) × σ) :=
  match "where" ++ type with
  | "whereBasic" => some ScriptGrammar.whereBasic
  | "whereIn" => some (fun g q w s =>
      let r := ScriptGrammar.whereIn g q w s; (some r.1, r.2))
  | "whereNotIn" => some (fun g q w s =>
      let r := ScriptGrammar.whereNotIn g q w s; (some r.1, r.2))
  | "whereNull" => some (fun g q w s =>
      let r := ScriptGrammar.whereNull g q w s; (some r.1, r.2))
  | "whereNotNull" => some (fun g q w s =>
      let r := ScriptGrammar.whereNotNull g q w s; (some r.1, r.2))
  | _ => none

/-- The body of the map inside compileWheresToArray, run clause by
clause.  A missing method is the logged configuration error followed by
the TypeError of calling undefined, modelled as a compile-time error
carrying the console.error text. -/
def ScriptGrammar.compileWheresToArrayGo {σ : Type} (g : ScriptGrammar σ)
    (query : Query) : List WhereClause → σ → Except String (List (CompiledClause σ)) × σ
  | [], s => (Except.ok [], s)
  | w :: ws, s =>
    match ScriptGrammar.methodFor w.type with
    | none =>
      (Except.error ("Method ScriptGrammar::where" ++ w.type ++ "() is not defined."), s)
    | some f =>
      let c := f g query w s
      match ScriptGrammar.compileWheresToArrayGo g query ws c.2 with
      | (Except.ok rest, s2) => (Except.ok ({ boolean := w.boolean, callback := c.1 } :: rest), s2)
      | (Except.error e, s2) => (Except.error e, s2)

/-- compileWheresToArray: compiles the "where" portions of the query
into an array of clauses, each pairing the clause's connective with the
callback returned by the dispatched compiler method.  Reading wheres on
a query without that field is the TypeError of mapping undefined. -/
def ScriptGrammar.compileWheresToArray {σ : Type} (g : ScriptGrammar σ)
    (query : Query) (s : σ) : Except String (List (CompiledClause σ)) × σ :=
  match query.wheres with
  | none => (Except.error "TypeError: query.wheres is undefined", s)
  | some ws => ScriptGrammar.compileWheresToArrayGo g query ws s

/-- The reduce inside the predicate returned by evaluateWhereClauses,
seeded with null.  A null accumulator takes the first clause's callback
result as is; afterwards the clause's connective combines the
accumulator with the callback's value, an unrecognized connective
falling out of the switch as undefined.  Every clause's callback is
invoked on the way, and a stored non-function callback raises a
TypeError. -/
def whereClausesReduce {σ : Type} : List (CompiledClause σ) → JsAcc →
    ScriptGrammar σ → σ → Except String JsAcc × σ
  | [], acc, _, s => (Except.ok acc, s)
  | c :: rest, acc, g, s =>
    match c.callback with
    | none => (Except.error "TypeError: clause.callback is not a function", s)
    | some cb =>
      if acc = JsAcc.null then
        let r := cb g s
        whereClausesReduce rest (JsAcc.bool r.1) g r.2
      else
        let r := cb g s
        let next :=
          match c.boolean with
          | "and" => jsAnd acc (JsAcc.bool r.1)
          | "or" => jsOr acc (JsAcc.bool r.1)
          | _ => JsAcc.undef
        whereClausesReduce rest next g r.2

/-- evaluateWhereClauses: evaluates the specified clauses into a boolean
value.  Returns the predicate closure that runs the reduce against the
grammar and state of the moment it is invoked. -/
def ScriptGrammar.evaluateWhereClauses {σ : Type} (g : ScriptGrammar σ)
    (query : Query) (clauses : List (CompiledClause σ)) : Predicate σ :=
  fun g2 s => whereClausesReduce clauses JsAcc.null g2 s

/-- compileWheres: compile the "where" portions of the query.  A query
without wheres, with an empty clause sequence, or whose compiled array
comes back empty yields the always-true predicate; otherwise the
compiled clauses are handed to evaluateWhereClauses. -/
def ScriptGrammar.compileWheres {σ : Type} (g : ScriptGrammar σ) (query : Query)
    (s : σ) : Except String (Predicate σ) × σ :=
  match query.wheres with
  | none => (Except.ok (fun g2 s2 => (Except.ok (JsAcc.bool true), s2)), s)
  | some ws =>
    if ws.length == 0 then
      (Except.ok (fun g2 s2 => (Except.ok (JsAcc.bool true), s2)), s)
    else
      let r := ScriptGrammar.compileWheresToArray g query s
      match r with
      | (Except.error e, s1) => (Except.error e, s1)
      | (Except.ok clauses, s1) =>
        if clauses.length == 0 then
          (Except.ok (fun g2 s2 => (Except.ok (JsAcc.bool true), s2)), s1)
        else
          (Except.ok (ScriptGrammar.evaluateWhereClauses g query clauses), s1)

/-- compile: the entry point; delegates entirely to compileWheres. -/
def ScriptGrammar.compile {σ : Type} (g : ScriptGrammar σ) (query : Query)
    (s : σ) : Except String (Predicate σ) × σ :=
  ScriptGrammar.compileWheres g query s

/-- The constructor: options.columnResolver when supplied, otherwise the
default resolver that always returns null. -/
def ScriptGrammar.new {σ : Type} (options : Option (Resolver σ)) : ScriptGrammar σ :=
  match options with
  | some r => { columnResolver := r }
  | none => { columnResolver := fun name s => (JsVal.null, s) }

/-- setColumnResolver: sets the column resolver for this grammar and
returns the instance. -/
def ScriptGrammar.setColumnResolver {σ : Type} (g : ScriptGrammar σ)
    (r : Resolver σ) : ScriptGrammar σ :=
  { g with columnResolver := r }

/-- Lifts a connective paired with a total callback into the compiled
clause shape, for stating properties of clause lists whose callbacks
are all genuine functions. -/
def mkCompiled {σ : Type} (p : String × Evaluator σ) : CompiledClause σ :=
  { boolean := p.1, callback := some p.2 }

/-- Modelled from the spec: combining one clause's value with the
accumulator using the clause's own connective, AND giving accumulator
and value, OR giving accumulator or value. -/
def specCombine (conn : String) (acc v : Bool) : Bool :=
  if conn = "and" then acc && v else acc || v

/-- Modelled from the spec: the left-to-right fold over the clauses that
follow the first one, each combined into the accumulator by its own
connective. -/
def specFoldRest {σ : Type} : List (String × Evaluator σ) → Bool →
    ScriptGrammar σ → σ → Bool × σ
  | [], acc, _, s => (acc, s)
  | p :: ps, acc, g, s =>
    let r := p.2 g s
    specFoldRest ps (specCombine p.1 acc r.1) g r.2

/-- Modelled from the spec: the whole fold, where the first clause's
evaluator result becomes the accumulator with that clause's connective
ignored, and the final accumulator is the result. -/
def specFoldClauses {σ : Type} (first : String × Evaluator σ)
    (rest : List (String × Evaluator σ)) (g : ScriptGrammar σ) (s : σ) : Bool × σ :=
  let r := first.2 g s
  specFoldRest rest r.1 g r.2

/-- The operator table of whereBasic stated directly over an already
resolved column value: loose equality for the equality family and the
JavaScript relational comparisons for the ordering family. -/
def basicOpSem (op : String) (c v : JsVal) : Bool :=
  match op with
  | "=" => looseEq c v
  | "!=" => !looseEq c v
  | "<>" => !looseEq c v
  | ">" => jsGt c v
  | ">=" => jsGe c v
  | "<" => jsLt c v
  | "<=" => jsLe c v
  | _ => false

/-- indexOf with a running index either misses (-1) or finds the value
at or beyond the index it started from. -/
theorem jsIndexOfAux_dichotomy (v : JsVal) :
    ∀ (l : List JsVal) (i : Nat),
      jsIndexOfAux v l i = -1 ∨ (i : Int) ≤ jsIndexOfAux v l i := by
  intro l
  induction l with
  | nil => intro i; exact Or.inl rfl
  | cons x xs ih =>
    intro i
    simp only [jsIndexOfAux]
    by_cases h : x == v
    · simp [h]
    · simp only [h, if_false, Bool.false_eq_true]
      rcases ih (i + 1) with h1 | h1
      · exact Or.inl h1
      · right; omega

/-- indexOf reports -1 exactly when the searched value is absent. -/
theorem jsIndexOfAux_eq_neg_one_iff (v : JsVal) :
    ∀ (l : List JsVal) (i : Nat), jsIndexOfAux v l i = -1 ↔ v ∉ l := by
  intro l
  induction l with
  | nil => intro i; simp [jsIndexOfAux]
  | cons x xs ih =>
    intro i
    simp only [jsIndexOfAux, List.mem_cons]
    by_cases h : x == v
    · rw [if_pos h]
      rw [beq_iff_eq] at h
      subst h
      constructor
      · intro he; exfalso; omega
      · intro hm; exact absurd (Or.inl rfl) hm
    · rw [if_neg h]
      rw [ih (i + 1)]
      have hne : v ≠ x := by
        intro he; rw [beq_iff_eq] at h; exact h he.symm
      constructor
      · intro hm hor; rcases hor with hor | hor
        · exact hne hor
        · exact hm hor
      · intro hall hm; exact hall (Or.inr hm)

/-- indexOf is nonnegative exactly when the searched value is present. -/
theorem jsIndexOf_nonneg_iff (l : List JsVal) (v : JsVal) :
    0 ≤ jsIndexOf l v ↔ v ∈ l := by
  unfold jsIndexOf
  rcases jsIndexOfAux_dichotomy v l 0 with h | h
  · rw [h]
    have hm := (jsIndexOfAux_eq_neg_one_iff v l 0).mp h
    constructor
    · intro hc; exfalso; omega
    · intro hc; exact absurd hc hm
  · constructor
    · intro _
      by_contra hm
      have := (jsIndexOfAux_eq_neg_one_iff v l 0).mpr hm
      omega
    · intro _; omega

/-- indexOf equals -1 exactly when the searched value is absent. -/
theorem jsIndexOf_eq_neg_one_iff (l : List JsVal) (v : JsVal) :
    jsIndexOf l v = -1 ↔ v ∉ l :=
  jsIndexOfAux_eq_neg_one_iff v l 0

/-- The membership test the whereIn callback performs. -/
theorem decide_indexOf_mem (l : List JsVal) (v : JsVal) :
    decide (jsIndexOf l v ≥ 0) = decide (v ∈ l) :=
  decide_eq_decide.mpr (by rw [ge_iff_le]; exact jsIndexOf_nonneg_iff l v)

/-- The -1 test the whereNotIn callback performs is the boolean negation
of the nonnegativity test the whereIn callback performs. -/
theorem decide_indexOf_neg_one (l : List JsVal) (v : JsVal) :
    decide (jsIndexOf l v = -1) = !decide (jsIndexOf l v ≥ 0) := by
  by_cases hm : v ∈ l
  · have h1 : ¬jsIndexOf l v = -1 := by
      rw [jsIndexOf_eq_neg_one_iff]; exact fun hc => hc hm
    have h2 : jsIndexOf l v ≥ 0 := by
      rw [ge_iff_le, jsIndexOf_nonneg_iff]; exact hm
    rw [decide_eq_false h1, decide_eq_true h2]; rfl
  · have h1 : jsIndexOf l v = -1 := (jsIndexOf_eq_neg_one_iff l v).mpr hm
    have h2 : ¬jsIndexOf l v ≥ 0 := by
      rw [ge_iff_le]
      intro hc
      exact hm ((jsIndexOf_nonneg_iff l v).mp hc)
    rw [decide_eq_true h1, decide_eq_false h2]; rfl

/-- Membership in the two-element array of whereNull spelt out. -/
theorem decide_null_pair (c : JsVal) :
    decide (jsIndexOf [JsVal.str "", JsVal.null] c ≥ 0) =
      decide (c = JsVal.str "" ∨ c = JsVal.null) :=
  (decide_indexOf_mem _ c).trans (decide_eq_decide.mpr (by simp))

/-- JavaScript conjunction agrees with boolean conjunction on
booleans. -/
theorem jsAnd_bool (a b : Bool) :
    jsAnd (JsAcc.bool a) (JsAcc.bool b) = JsAcc.bool (a && b) := by
  cases a <;> rfl

/-- JavaScript disjunction agrees with boolean disjunction on
booleans. -/
theorem jsOr_bool (a b : Bool) :
    jsOr (JsAcc.bool a) (JsAcc.bool b) = JsAcc.bool (a || b) := by
  cases a <;> rfl
/-- The reduce over clauses with genuine callbacks whose accumulator is
already a boolean follows the spec-side fold of the remaining clauses,
provided every remaining connective is and or or. -/
theorem whereClausesReduce_map_bool {σ : Type} (g : ScriptGrammar σ) :
    ∀ (ps : List (String × Evaluator σ)) (a : Bool) (s : σ),
      (∀ p ∈ ps, p.1 = "and" ∨ p.1 = "or") →
      whereClausesReduce (ps.map mkCompiled) (JsAcc.bool a) g s =
        (let r := specFoldRest ps a g s; (Except.ok (JsAcc.bool r.1), r.2)) := by
  intro ps
  induction ps with
  | nil => intro a s h; rfl
  | cons p ps ih =>
    intro a s h
    simp only [List.map_cons, whereClausesReduce, mkCompiled, specFoldRest]
    rw [if_neg (by simp)]
    rcases h p (List.mem_cons_self p ps) with h1 | h1 <;> rw [h1]
    · show whereClausesReduce (ps.map mkCompiled) (jsAnd (JsAcc.bool a) (JsAcc.bool (p.2 g s).1)) g (p.2 g s).2 = _
      rw [jsAnd_bool]
      have := ih (a && (p.2 g s).1) (p.2 g s).2 (fun q hq => h q (List.mem_cons_of_mem p hq))
      rw [this]
      simp [specCombine]
    · show whereClausesReduce (ps.map mkCompiled) (jsOr (JsAcc.bool a) (JsAcc.bool (p.2 g s).1)) g (p.2 g s).2 = _
      rw [jsOr_bool]
      have := ih (a || (p.2 g s).1) (p.2 g s).2 (fun q hq => h q (List.mem_cons_of_mem p hq))
      rw [this]
      simp [specCombine]

/-- Claim C1: the predicate returned by evaluateWhereClauses folds the
clause list left to right, seeding the accumulator with the first
clause's evaluator result while ignoring that clause's connective, and
combining every later clause's evaluator result into the accumulator
with that clause's own connective, and giving conjunction and or giving
disjunction; the final accumulator is the predicate's result. -/
theorem evaluateWhereClauses_folds_connectives (σ : Type) (gq g : ScriptGrammar σ)
    (query : Query) (s : σ) (first : String × Evaluator σ)
    (rest : List (String × Evaluator σ))
    (hconn : ∀ p ∈ rest, p.1 = "and" ∨ p.1 = "or") :
    ScriptGrammar.evaluateWhereClauses gq query
        (mkCompiled first :: rest.map mkCompiled) g s =
      (let r := specFoldClauses first rest g s;
        (Except.ok (JsAcc.bool r.1), r.2)) := by
  show whereClausesReduce (mkCompiled first :: rest.map mkCompiled) JsAcc.null g s = _
  simp only [whereClausesReduce, mkCompiled, specFoldClauses]
  rw [if_pos trivial]
  exact whereClausesReduce_map_bool g rest (first.2 g s).1 (first.2 g s).2 hconn

/-- Claim C1 witness: a two-clause fold, an or-clause after a first
clause whose connective is ignored, evaluated at a concrete grammar. -/
theorem evaluateWhereClauses_folds_connectives_witness :
    ScriptGrammar.evaluateWhereClauses (ScriptGrammar.new none : ScriptGrammar Unit)
        ⟨none⟩
        (mkCompiled ("and", fun g2 s2 => (false, s2)) ::
          [("or", fun g2 s2 => (true, s2))].map mkCompiled)
        (ScriptGrammar.new none) () =
      (Except.ok (JsAcc.bool true), ()) :=
  (evaluateWhereClauses_folds_connectives Unit (ScriptGrammar.new none)
    (ScriptGrammar.new none) ⟨none⟩ () ("and", fun g2 s2 => (false, s2))
    [("or", fun g2 s2 => (true, s2))]
    (by intro p hp; simp at hp; rw [hp]; right; rfl)).trans rfl

/-- The reduce invokes every genuine callback exactly once in order,
whatever the accumulator and the connectives are: the final state is the
left fold of the callbacks' state transitions. -/
theorem whereClausesReduce_state {σ : Type} (g : ScriptGrammar σ) :
    ∀ (ps : List (String × Evaluator σ)) (acc : JsAcc) (s : σ),
      (whereClausesReduce (ps.map mkCompiled) acc g s).2 =
        ps.foldl (fun st p => (p.2 g st).2) s := by
  intro ps
  induction ps with
  | nil => intro acc s; rfl
  | cons p ps ih =>
    intro acc s
    simp only [List.map_cons, whereClausesReduce, mkCompiled, List.foldl_cons]
    by_cases h : acc = JsAcc.null
    · rw [if_pos h]; exact ih _ _
    · rw [if_neg h]; exact ih _ _

/-- Claim C2: no short-circuiting.  Every clause's evaluator is invoked
exactly once per predicate invocation, regardless of the connectives and
of earlier clause results: the predicate's final state is the left fold
of all the evaluators' state transitions.  Concretely, with a counting
resolver, a two-clause and-query whose first clause is false still
invokes the second clause's evaluator, yielding the result false with an
invocation count equal to the clause count. -/
theorem evaluateWhereClauses_no_short_circuit :
    (∀ (σ : Type) (gq g : ScriptGrammar σ) (query : Query) (s : σ)
        (ps : List (String × Evaluator σ)),
      (ScriptGrammar.evaluateWhereClauses gq query (ps.map mkCompiled) g s).2 =
        ps.foldl (fun st p => (p.2 g st).2) s)
    ∧ (∃ p, ScriptGrammar.compile
          (ScriptGrammar.new (some (fun x (n : Nat) => (JsVal.num 0, n + 1))))
          ⟨some [⟨"Basic", "and", "a", "=", JsVal.num 1, []⟩,
                 ⟨"Basic", "and", "b", "=", JsVal.num 0, []⟩]⟩ 0 = (Except.ok p, 0) ∧
        p (ScriptGrammar.new (some (fun x (n : Nat) => (JsVal.num 0, n + 1)))) 0 =
          (Except.ok (JsAcc.bool false), 2)) :=
  ⟨fun σ gq g query s ps => whereClausesReduce_state g ps JsAcc.null s,
   ⟨_, rfl, rfl⟩⟩

/-- Claim C3: a query whose wheres field is absent or whose clause
sequence is empty compiles to a predicate returning true on every
invocation, for any resolver and state. -/
theorem compileWheres_empty_always_true (σ : Type) (g : ScriptGrammar σ)
    (q : Query) (s : σ) (h : q.wheres = none ∨ q.wheres = some [])
    (g2 : ScriptGrammar σ) (s2 : σ) :
    ∃ p, ScriptGrammar.compileWheres g q s = (Except.ok p, s) ∧
      p g2 s2 = (Except.ok (JsAcc.bool true), s2) := by
  rcases q with ⟨wq⟩
  rcases h with h | h <;> simp only at h <;> subst h <;> exact ⟨_, rfl, rfl⟩

/-- Claim C3 witness: the absent-wheres query compiled over the unit
state with the default grammar. -/
theorem compileWheres_empty_always_true_witness :
    ∃ p, ScriptGrammar.compileWheres (ScriptGrammar.new none : ScriptGrammar Unit)
        ⟨none⟩ () = (Except.ok p, ()) ∧
      p (ScriptGrammar.new none) () = (Except.ok (JsAcc.bool true), ()) :=
  compileWheres_empty_always_true Unit (ScriptGrammar.new none) ⟨none⟩ ()
    (Or.inl rfl) (ScriptGrammar.new none) ()

/-- Claim C5: for every column, values list, grammar and state, the
whereNotIn callback returns the exact boolean negation of the whereIn
callback compiled from the same clause, with the same resolver side
effect. -/
theorem whereNotIn_negates_whereIn (σ : Type) (gq g : ScriptGrammar σ)
    (q : Query) (w : WhereClause) (sc s : σ) :
    ((ScriptGrammar.whereNotIn gq q w sc).1 g s).1 =
        !((ScriptGrammar.whereIn gq q w sc).1 g s).1
    ∧ ((ScriptGrammar.whereNotIn gq q w sc).1 g s).2 =
        ((ScriptGrammar.whereIn gq q w sc).1 g s).2 := by
  constructor
  · show decide (jsIndexOf w.values (g.columnResolver w.column s).1 = -1) =
      !decide (jsIndexOf w.values (g.columnResolver w.column s).1 ≥ 0)
    exact decide_indexOf_neg_one w.values (g.columnResolver w.column s).1
  · rfl

/-- Claim C9 evaluation: a Basic clause with the unrecognized operator
=== compiles without failing into a predicate whose invocation then
raises the TypeError, while an unknown clause kind makes compilation
itself fail with the reported error. -/
theorem unknown_operator_defers_failure :
    (∃ p, ScriptGrammar.compile (ScriptGrammar.new none : ScriptGrammar Unit)
        ⟨some [⟨"Basic", "and", "a", "===", JsVal.num 0, []⟩]⟩ () = (Except.ok p, ()) ∧
      p (ScriptGrammar.new none) () =
        (Except.error "TypeError: clause.callback is not a function", ()))
    ∧ ScriptGrammar.compile (ScriptGrammar.new none : ScriptGrammar Unit)
        ⟨some [⟨"Foo", "and", "a", "=", JsVal.num 0, []⟩]⟩ () =
      (Except.error "Method ScriptGrammar::whereFoo() is not defined.", ()) :=
  ⟨⟨_, rfl, rfl⟩, rfl⟩

/-- Claim C10: whereIn decides membership by strict, type-sensitive
equality against the values list, unlike the loose equality of the
Basic = operator: a column resolving to the string 1 satisfies a Basic
= clause against the number 1 but not an In clause whose values list is
exactly the number 1. -/
theorem whereIn_strict_membership_vs_loose_equality :
    (∀ (σ : Type) (gq g : ScriptGrammar σ) (q : Query) (w : WhereClause)
        (sc s : σ),
      ((ScriptGrammar.whereIn gq q w sc).1 g s).1 =
        decide ((g.columnResolver w.column s).1 ∈ w.values))
    ∧ (∃ p, ScriptGrammar.compile
          (ScriptGrammar.new (some (fun x (u : Unit) => (JsVal.str "1", u))))
          ⟨some [⟨"Basic", "and", "a", "=", JsVal.num 1, []⟩]⟩ () = (Except.ok p, ()) ∧
        p (ScriptGrammar.new (some (fun x (u : Unit) => (JsVal.str "1", u)))) () =
          (Except.ok (JsAcc.bool true), ()))
    ∧ (∃ p, ScriptGrammar.compile
          (ScriptGrammar.new (some (fun x (u : Unit) => (JsVal.str "1", u))))
          ⟨some [⟨"In", "and", "a", "", JsVal.null, [JsVal.num 1]⟩]⟩ () = (Except.ok p, ()) ∧
        p (ScriptGrammar.new (some (fun x (u : Unit) => (JsVal.str "1", u)))) () =
          (Except.ok (JsAcc.bool false), ())) :=
  ⟨fun σ gq g q w sc s => decide_indexOf_mem w.values (g.columnResolver w.column s).1,
   ⟨_, rfl, rfl⟩, ⟨_, rfl, rfl⟩⟩

/-- Claim C4: the evaluator whereBasic compiles for a recognized
operator resolves the column through the resolver of the grammar passed
at invocation time and applies the operator table against the clause's
value: loose equality for the equality family, the JavaScript ordering
comparisons for the rest.  In particular a Basic = clause on column age
with value 30 yields true under a resolver returning 30 and false under
a resolver returning 31, and the equality is loose, not
type-sensitive. -/
theorem whereBasic_operator_semantics (σ : Type) (gq g : ScriptGrammar σ)
    (q : Query) (w : WhereClause) (sc s : σ)
    (hop : w.operator ∈ ["=", "!=", "<>", ">", ">=", "<", "<="]) :
    (∃ cb, (ScriptGrammar.whereBasic gq q w sc).1 = some cb ∧
      cb g s = (basicOpSem w.operator (g.columnResolver w.column s).1 w.value,
        (g.columnResolver w.column s).2))
    ∧ looseEq (JsVal.str "30") (JsVal.num 30) = true
    ∧ (JsVal.str "30" == JsVal.num 30) = false
    ∧ (∃ p, ScriptGrammar.compile
          (ScriptGrammar.new (some (fun x (u : σ) => (JsVal.num 30, u))))
          ⟨some [⟨"Basic", "and", "age", "=", JsVal.num 30, []⟩]⟩ s = (Except.ok p, s) ∧
        p (ScriptGrammar.new (some (fun x (u : σ) => (JsVal.num 30, u)))) s =
          (Except.ok (JsAcc.bool true), s))
    ∧ (∃ p, ScriptGrammar.compile
          (ScriptGrammar.new (some (fun x (u : σ) => (JsVal.num 31, u))))
          ⟨some [⟨"Basic", "and", "age", "=", JsVal.num 30, []⟩]⟩ s = (Except.ok p, s) ∧
        p (ScriptGrammar.new (some (fun x (u : σ) => (JsVal.num 31, u)))) s =
          (Except.ok (JsAcc.bool false), s)) := by
  rcases w with ⟨ty, bo, colm, op, v, vals⟩
  simp only [List.mem_cons, List.not_mem_nil, or_false] at hop
  rcases hop with h | h | h | h | h | h | h <;> subst h <;>
    exact ⟨⟨_, rfl, rfl⟩, rfl, rfl, ⟨_, rfl, rfl⟩, ⟨_, rfl, rfl⟩⟩

/-- Claim C4 witness: the operator table applied at the = operator over
the unit state with a resolver returning the number 30. -/
theorem whereBasic_operator_semantics_witness :
    (∃ cb, (ScriptGrammar.whereBasic
          (ScriptGrammar.new (some (fun x (u : Unit) => (JsVal.num 30, u))))
          ⟨some []⟩ ⟨"Basic", "and", "age", "=", JsVal.num 30, []⟩ ()).1 = some cb ∧
      cb (ScriptGrammar.new (some (fun x (u : Unit) => (JsVal.num 30, u)))) () =
        (basicOpSem "="
          ((ScriptGrammar.new (some (fun x (u : Unit) => (JsVal.num 30, u)))).columnResolver
            "age" ()).1 (JsVal.num 30),
          ((ScriptGrammar.new (some (fun x (u : Unit) => (JsVal.num 30, u)))).columnResolver
            "age" ()).2))
    ∧ looseEq (JsVal.str "30") (JsVal.num 30) = true
    ∧ (JsVal.str "30" == JsVal.num 30) = false
    ∧ (∃ p, ScriptGrammar.compile
          (ScriptGrammar.new (some (fun x (u : Unit) => (JsVal.num 30, u))))
          ⟨some [⟨"Basic", "and", "age", "=", JsVal.num 30, []⟩]⟩ () = (Except.ok p, ()) ∧
        p (ScriptGrammar.new (some (fun x (u : Unit) => (JsVal.num 30, u)))) () =
          (Except.ok (JsAcc.bool true), ()))
    ∧ (∃ p, ScriptGrammar.compile
          (ScriptGrammar.new (some (fun x (u : Unit) => (JsVal.num 31, u))))
          ⟨some [⟨"Basic", "and", "age", "=", JsVal.num 30, []⟩]⟩ () = (Except.ok p, ()) ∧
        p (ScriptGrammar.new (some (fun x (u : Unit) => (JsVal.num 31, u)))) () =
          (Except.ok (JsAcc.bool false), ())) :=
  whereBasic_operator_semantics Unit
    (ScriptGrammar.new (some (fun x (u : Unit) => (JsVal.num 30, u))))
    (ScriptGrammar.new (some (fun x (u : Unit) => (JsVal.num 30, u))))
    ⟨some []⟩ ⟨"Basic", "and", "age", "=", JsVal.num 30, []⟩ () ()
    (List.mem_cons_self _ _)

/-- Claim C6: the whereNull callback returns true exactly when the
resolved column value is the empty string or null, and the whereNotNull
callback returns the exact opposite, both leaving the resolver's state
transition as their only effect. -/
theorem whereNull_whereNotNull_semantics (σ : Type) (gq g : ScriptGrammar σ)
    (q : Query) (w : WhereClause) (sc s : σ) (c : JsVal) (t : σ)
    (hr : g.columnResolver w.column s = (c, t)) :
    (ScriptGrammar.whereNull gq q w sc).1 g s =
      (decide (c = JsVal.str "" ∨ c = JsVal.null), t)
    ∧ (ScriptGrammar.whereNotNull gq q w sc).1 g s =
      (!decide (c = JsVal.str "" ∨ c = JsVal.null), t) := by
  have h1 : (ScriptGrammar.whereNull gq q w sc).1 g s =
      (decide (jsIndexOf [JsVal.str "", JsVal.null] c ≥ 0), t) := by
    show (decide (jsIndexOf [JsVal.str "", JsVal.null]
        (g.columnResolver w.column s).1 ≥ 0), (g.columnResolver w.column s).2) = _
    rw [hr]
  have h2 : (ScriptGrammar.whereNotNull gq q w sc).1 g s =
      (decide (jsIndexOf [JsVal.str "", JsVal.null] c = -1), t) := by
    show (decide (jsIndexOf [JsVal.str "", JsVal.null]
        (g.columnResolver w.column s).1 = -1), (g.columnResolver w.column s).2) = _
    rw [hr]
  constructor
  · exact h1.trans (congrArg (fun b => (b, t)) (decide_null_pair c))
  · exact h2.trans (congrArg (fun b => (b, t))
      ((decide_indexOf_neg_one [JsVal.str "", JsVal.null] c).trans
        (congrArg (fun b => !b) (decide_null_pair c))))

/-- Claim C6 witness: a resolver returning the string x makes the
whereNull callback false and the whereNotNull callback true. -/
theorem whereNull_whereNotNull_semantics_witness :
    (ScriptGrammar.whereNull
        (ScriptGrammar.new (some (fun x (u : Unit) => (JsVal.str "x", u))))
        ⟨some []⟩ ⟨"Null", "and", "a", "", JsVal.null, []⟩ ()).1
        (ScriptGrammar.new (some (fun x (u : Unit) => (JsVal.str "x", u)))) () =
      (decide (JsVal.str "x" = JsVal.str "" ∨ JsVal.str "x" = JsVal.null), ())
    ∧ (ScriptGrammar.whereNotNull
        (ScriptGrammar.new (some (fun x (u : Unit) => (JsVal.str "x", u))))
        ⟨some []⟩ ⟨"Null", "and", "a", "", JsVal.null, []⟩ ()).1
        (ScriptGrammar.new (some (fun x (u : Unit) => (JsVal.str "x", u)))) () =
      (!decide (JsVal.str "x" = JsVal.str "" ∨ JsVal.str "x" = JsVal.null), ()) :=
  whereNull_whereNotNull_semantics Unit
    (ScriptGrammar.new (some (fun x (u : Unit) => (JsVal.str "x", u))))
    (ScriptGrammar.new (some (fun x (u : Unit) => (JsVal.str "x", u))))
    ⟨some []⟩ ⟨"Null", "and", "a", "", JsVal.null, []⟩ () () (JsVal.str "x") () rfl

/-- Claim C7: column resolution is late-bound.  The same compiled
predicate, invoked once against the grammar it was compiled on and once
against that grammar after setColumnResolver, resolves through whichever
resolver is current at each invocation. -/
theorem setColumnResolver_late_binding (σ : Type) (r1 r2 : Resolver σ) (s : σ)
    (col : String) (v c1 c2 : JsVal) (t1 t2 : σ)
    (h1 : r1 col s = (c1, t1)) (h2 : r2 col s = (c2, t2)) :
    ∃ p, ScriptGrammar.compile (ScriptGrammar.new (some r1))
        ⟨some [⟨"Basic", "and", col, "=", v, []⟩]⟩ s = (Except.ok p, s) ∧
      p (ScriptGrammar.new (some r1)) s = (Except.ok (JsAcc.bool (looseEq c1 v)), t1) ∧
      p ((ScriptGrammar.new (some r1)).setColumnResolver r2) s =
        (Except.ok (JsAcc.bool (looseEq c2 v)), t2) := by
  refine ⟨_, rfl, ?_, ?_⟩
  · show (Except.ok (JsAcc.bool (looseEq (r1 col s).1 v)), (r1 col s).2) = _
    rw [h1]
  · show (Except.ok (JsAcc.bool (looseEq (r2 col s).1 v)), (r2 col s).2) = _
    rw [h2]

/-- Claim C7 witness: swapping a resolver returning 30 for one
returning 31 flips the second invocation of the same compiled
predicate. -/
theorem setColumnResolver_late_binding_witness :
    ∃ p, ScriptGrammar.compile
        (ScriptGrammar.new (some (fun x (u : Unit) => (JsVal.num 30, u))))
        ⟨some [⟨"Basic", "and", "age", "=", JsVal.num 30, []⟩]⟩ () = (Except.ok p, ()) ∧
      p (ScriptGrammar.new (some (fun x (u : Unit) => (JsVal.num 30, u)))) () =
        (Except.ok (JsAcc.bool (looseEq (JsVal.num 30) (JsVal.num 30))), ()) ∧
      p ((ScriptGrammar.new (some (fun x (u : Unit) =>
            (JsVal.num 30, u)))).setColumnResolver (fun x (u : Unit) => (JsVal.num 31, u))) () =
        (Except.ok (JsAcc.bool (looseEq (JsVal.num 31) (JsVal.num 30))), ()) :=
  setColumnResolver_late_binding Unit (fun x (u : Unit) => (JsVal.num 30, u))
    (fun x (u : Unit) => (JsVal.num 31, u)) () "age" (JsVal.num 30)
    (JsVal.num 30) (JsVal.num 31) () () rfl rfl

/-- Every function the dynamic dispatch can return leaves the
compile-time state unchanged: no clause compiler reads a column. -/
theorem methodFor_state {σ : Type} (t : String)
    (f : ScriptGrammar σ → Query → WhereClause → σ → Option (Evaluator σ) × σ)
    (hf : ScriptGrammar.methodFor t = some f)
    (g : ScriptGrammar σ) (q : Query) (w : WhereClause) (s : σ) :
    (f g q w s).2 = s := by
  unfold ScriptGrammar.methodFor at hf
  split at hf <;> first
    | exact Option.noConfusion hf
    | (injection hf with h; subst h; rfl)

/-- Compiling a clause list threads the state through untouched. -/
theorem compileWheresToArrayGo_state {σ : Type} (g : ScriptGrammar σ) (q : Query) :
    ∀ (ws : List WhereClause) (s : σ),
      (ScriptGrammar.compileWheresToArrayGo g q ws s).2 = s := by
  intro ws
  induction ws with
  | nil => intro s; rfl
  | cons w rest ih =>
    intro s
    simp only [ScriptGrammar.compileWheresToArrayGo]
    rcases hm : @ScriptGrammar.methodFor σ w.type with _ | f
    · simp only [hm]
    · simp only [hm]
      have hc : (f g q w s).2 = s := methodFor_state w.type f hm g q w s
      rcases hgo : ScriptGrammar.compileWheresToArrayGo g q rest (f g q w s).2
        with ⟨res, s2⟩
      have hs2 : s2 = (f g q w s).2 := by
        have h3 := ih (f g q w s).2
        rw [hgo] at h3
        exact h3
      cases res <;> simp [hs2, hc]

/-- compileWheres threads the state through untouched. -/
theorem compileWheres_state {σ : Type} (g : ScriptGrammar σ) (query : Query)
    (s : σ) : (ScriptGrammar.compileWheres g query s).2 = s := by
  rcases query with ⟨wq⟩
  cases wq with
  | none => rfl
  | some ws =>
    simp only [ScriptGrammar.compileWheres]
    split
    · rfl
    · rcases hgo : ScriptGrammar.compileWheresToArray g ⟨some ws⟩ s with ⟨res, s1⟩
      have hs1 : s1 = s := by
        have h2 : (ScriptGrammar.compileWheresToArray g ⟨some ws⟩ s).2 = s :=
          compileWheresToArrayGo_state g ⟨some ws⟩ ws s
        rw [hgo] at h2
        exact h2
      subst hs1
      cases res with
      | error e => simp
      | ok clauses =>
        simp only []
        split
        · rfl
        · rfl

/-- Claim C8: compilation is lazy with respect to data access.  For
every query, grammar and state, compiling leaves the state unchanged:
the resolver is invoked zero times at compile time.  The resolver runs
only when the compiled predicate is invoked, and every invocation
re-reads the live value: under a resolver returning the current counter
as the column value, the same predicate answers true at count 0 and
false at count 1, bumping the counter each time. -/
theorem compile_reads_no_columns :
    (∀ (σ : Type) (g : ScriptGrammar σ) (query : Query) (s : σ),
      (ScriptGrammar.compile g query s).2 = s)
    ∧ (∃ p, ScriptGrammar.compile
          (ScriptGrammar.new (some (fun x (n : Nat) => (JsVal.num n, n + 1))))
          ⟨some [⟨"Basic", "and", "age", "=", JsVal.num 0, []⟩]⟩ 0 = (Except.ok p, 0) ∧
        p (ScriptGrammar.new (some (fun x (n : Nat) => (JsVal.num n, n + 1)))) 0 =
          (Except.ok (JsAcc.bool true), 1) ∧
        p (ScriptGrammar.new (some (fun x (n : Nat) => (JsVal.num n, n + 1)))) 1 =
          (Except.ok (JsAcc.bool false), 2)) :=
  ⟨fun σ g query s => compileWheres_state g query s, ⟨_, rfl, rfl, rfl⟩⟩
